import Mathlib

/-!
Verification development for the NeoXBridge AI repository.

The repository is a conversational blockchain assistant.  This file embeds,
as executable Lean definitions, the parts of the code that the verified
properties are about:

* `parse_intent` — the keyword/regex intent router of
  `neoxbridge_comprehensive_agent.py` (class `NeoXBridgeComprehensiveAgent`);
* `comprehensive_security_check` — the security suite of
  `security_and_analysis_tools.py` (class `ComprehensiveSecuritySuite`),
  together with the GoPlusLabs client helpers it calls;
* the `NeoAPIClient` operations of `neo_blockchain_tools.py`;
* the session-context update of `src/agent.py` (`NeoXBridgeAgent`);
* `NeoXTools.send_transaction` and friends of `src/tools.py`;
* the `CryptoPriceMonitor` alert lifecycle of `security_and_analysis_tools.py`.

Modelling conventions: Python strings are `String` / `List Char` (messages are
scanned character by character, so the router side uses `List Char`); Python
floats are exact rationals `ℚ`; Python dicts/JSON values are the inductive
`Json`; code that can raise returns `Except String _`, and external HTTP
interactions are supplied by an environment value of that type.  Timestamps
are abstracted to `Nat` ticks where they matter and dropped where they are
only echoed back to the user.
-/

/-! ### ASCII character helpers (Python `str.lower`/`str.upper`, regex classes) -/

/-- ASCII lower-casing of one character, as Python `str.lower` acts on ASCII. -/
def asciiLower (c : Char) : Char :=
  if 'A' ≤ c && c ≤ 'Z' then Char.ofNat (c.toNat + 32) else c

/-- ASCII upper-casing of one character, as Python `str.upper` acts on ASCII. -/
def asciiUpper (c : Char) : Char :=
  if 'a' ≤ c && c ≤ 'z' then Char.ofNat (c.toNat - 32) else c

/-- Lower-case a character list (the router works on `message.lower()`). -/
def lowerStr (l : List Char) : List Char := l.map asciiLower

/-- Upper-case a character list (used for `match.group(2).upper()`). -/
def upperStr (l : List Char) : List Char := l.map asciiUpper

/-- The regex class `[A-Za-z0-9]` used in the address patterns. -/
def isAsciiAlnum (c : Char) : Bool :=
  ('A' ≤ c && c ≤ 'Z') || ('a' ≤ c && c ≤ 'z') || ('0' ≤ c && c ≤ '9')

/-- The regex class `[a-fA-F0-9]` used in the hex patterns. -/
def isHexDigitChar (c : Char) : Bool :=
  ('0' ≤ c && c ≤ '9') || ('a' ≤ c && c ≤ 'f') || ('A' ≤ c && c ≤ 'F')

/-- The regex class `[1-9A-HJ-NP-Za-km-z]` of the WIF private-key pattern. -/
def isWifChar (c : Char) : Bool :=
  ('1' ≤ c && c ≤ '9') || ('A' ≤ c && c ≤ 'H') || ('J' ≤ c && c ≤ 'N') ||
  ('P' ≤ c && c ≤ 'Z') || ('a' ≤ c && c ≤ 'k') || ('m' ≤ c && c ≤ 'z')

/-- Regex `\s` (ASCII whitespace as Python matches it). -/
def isPySpace (c : Char) : Bool :=
  c == ' ' || c == '\t' || c == '\n' || c == '\x0d' || c == '\x0c' || c == '\x0b'

/-- Regex `\w` (word character, ASCII fragment): alphanumeric or underscore. -/
def isWordChar (c : Char) : Bool := isAsciiAlnum c || c == '_'

/-! ### Substring search (Python `needle in haystack`) and regex scanning -/

/-- Whether `pre` is a prefix of `l` (character lists). -/
def startsWithList : List Char → List Char → Bool
  | [], _ => true
  | _ :: _, [] => false
  | a :: as, b :: bs => a == b && startsWithList as bs

/-- Python substring test `needle in hay`. -/
def inStr (needle : List Char) : List Char → Bool
  | [] => startsWithList needle []
  | c :: rest => startsWithList needle (c :: rest) || inStr needle rest

/-- Leftmost-match regex search: try the position matcher `f` at every suffix
of the input, left to right, as `re.search` does. -/
def scanOpt {α : Type} (f : List Char → Option α) : List Char → Option α
  | [] => f []
  | c :: rest =>
    match f (c :: rest) with
    | some r => some r
    | none => scanOpt f rest

/-- Leftmost-match search that also tracks the previous character, for regex
word boundaries `\b`. -/
def scanPrev {α : Type} (f : Option Char → List Char → Option α) :
    Option Char → List Char → Option α
  | prev, [] => f prev []
  | prev, c :: rest =>
    match f prev (c :: rest) with
    | some r => some r
    | none => scanPrev f (some c) rest

/-- Match exactly `n` characters of class `p`; return them and the rest. -/
def takeClass (p : Char → Bool) : Nat → List Char → Option (List Char × List Char)
  | 0, l => some ([], l)
  | _ + 1, [] => none
  | n + 1, c :: rest =>
    if p c then (takeClass p n rest).map (fun pr => (c :: pr.1, pr.2)) else none

/-- Greedy `p+`: one or more characters of class `p`, maximal munch. -/
def takePlus (p : Char → Bool) (l : List Char) : Option (List Char × List Char) :=
  let m := l.takeWhile p
  if m.isEmpty then none else some (m, l.drop m.length)

/-! ### The concrete patterns of `NeoXBridgeComprehensiveAgent.parse_intent`

Each matcher below embeds one of the regular expressions of
`neoxbridge_comprehensive_agent.py`, specialised to the concrete pattern
(the patterns are deterministic: every repetition is either fixed-length or
greedy with a follow set disjoint from the repeated class, so maximal munch
coincides with backtracking search).
-/

/-- Try regex `[Nn][A-Za-z0-9]{33}` at the head of the input; on success
return the 34 matched characters and the rest. -/
def matchAddrAt : List Char → Option (List Char × List Char)
  | c :: rest =>
    if c == 'N' || c == 'n' then
      (takeClass isAsciiAlnum 33 rest).map (fun pr => (c :: pr.1, pr.2))
    else none
  | [] => none

/-- `re.search(r'([Nn][A-Za-z0-9]{33})', message)`: leftmost address-shaped
token of the message, if any. -/
def findAddress (message : List Char) : Option (List Char) :=
  (scanOpt matchAddrAt message).map (·.1)

/-- Try regex `0x[a-fA-F0-9]{40}` at the head of the input. -/
def matchTokenAt : List Char → Option (List Char)
  | '0' :: 'x' :: rest => (takeClass isHexDigitChar 40 rest).map (fun pr => '0' :: 'x' :: pr.1)
  | _ => none

/-- `re.search(r'(0x[a-fA-F0-9]{40})', message)`. -/
def findToken (message : List Char) : Option (List Char) := scanOpt matchTokenAt message

/-- Try regex `https?://[^\s]+` at the head of the input (greedy body). -/
def matchUrlAt (l : List Char) : Option (List Char) :=
  if startsWithList "https://".data l then
    (takePlus (fun c => !isPySpace c) (l.drop 8)).map (fun pr => "https://".data ++ pr.1)
  else if startsWithList "http://".data l then
    (takePlus (fun c => !isPySpace c) (l.drop 7)).map (fun pr => "http://".data ++ pr.1)
  else none

/-- `re.search(r'https?://[^\s]+', message)`. -/
def findUrl (message : List Char) : Option (List Char) := scanOpt matchUrlAt message

/-- Try WIF regex `[KL][1-9A-HJ-NP-Za-km-z]{51}` at the head of the input. -/
def matchWifAt : List Char → Option (List Char)
  | c :: rest =>
    if c == 'K' || c == 'L' then
      (takeClass isWifChar 51 rest).map (fun pr => c :: pr.1)
    else none
  | [] => none

/-- Try regex `0x[a-fA-F0-9]{64}` at the head of the input. -/
def matchHex0xAt : List Char → Option (List Char)
  | '0' :: 'x' :: rest => (takeClass isHexDigitChar 64 rest).map (fun pr => '0' :: 'x' :: pr.1)
  | _ => none

/-- Try regex `\b[a-fA-F0-9]{64}\b` given the previous character (for the
word boundaries). -/
def matchRawHexAt (prev : Option Char) (l : List Char) : Option (List Char) :=
  if (match prev with | none => true | some c => !isWordChar c) then
    match takeClass isHexDigitChar 64 l with
    | some (m, rest) =>
      (match rest with
       | [] => some m
       | c :: _ => if isWordChar c then none else some m)
    | none => none
  else none

/-- The private-key extraction loop of the wallet branch: the three
`key_patterns` are searched in order (WIF, `0x`-prefixed hex, bare hex with
word boundaries) and the first pattern with a match anywhere wins. -/
def findPrivateKey (message : List Char) : Option (List Char) :=
  match scanOpt matchWifAt message with
  | some k => some k
  | none =>
    match scanOpt matchHex0xAt message with
    | some k => some k
    | none => scanPrev matchRawHexAt none message

/-- Digits of a decimal group to a natural number. -/
def digitsToNat (l : List Char) : Nat :=
  l.foldl (fun n c => 10 * n + (c.toNat - '0'.toNat)) 0

/-- Python `float(...)` on a regex group matching `\d+(?:\.\d+)?`, modelled as
an exact rational (the claims only involve values that floats represent
exactly). -/
def parseAmount (g : List Char) : ℚ :=
  let ip := g.takeWhile Char.isDigit
  match g.drop ip.length with
  | '.' :: fr => mkRat (digitsToNat ip * 10 ^ fr.length + digitsToNat fr) (10 ^ fr.length)
  | _ => (digitsToNat ip : ℚ)

/-- The alternation `(?:send|transfer|pay)` at the head of the input. -/
def stripSendKeyword (l : List Char) : Option (List Char) :=
  if startsWithList "send".data l then some (l.drop 4)
  else if startsWithList "transfer".data l then some (l.drop 8)
  else if startsWithList "pay".data l then some (l.drop 3)
  else none

/-- The alternation `(neo|gas)` at the head of the input (the router runs
this regex on the lower-cased message). -/
def matchAssetAt (l : List Char) : Option (List Char × List Char) :=
  if startsWithList "neo".data l then some ("neo".data, l.drop 3)
  else if startsWithList "gas".data l then some ("gas".data, l.drop 3)
  else none

/-- The optional fraction `(?:\.\d+)?` (greedy). Returns the consumed
characters (to append to group 1) and the rest. -/
def matchOptFrac (l : List Char) : List Char × List Char :=
  match l with
  | '.' :: rest =>
    (match takePlus Char.isDigit rest with
     | some (ds, r) => ('.' :: ds, r)
     | none => ([], l))
  | _ => ([], l)

/-- Try the strict single-recipient pattern
`(?:send|transfer|pay)\s+(\d+(?:\.\d+)?)\s+(neo|gas)\s+to\s+([Nn][A-Za-z0-9]{33})`
at the head of the input; on success return the three capture groups
(amount text, asset, recipient). -/
def matchSendAt (l : List Char) : Option (List Char × List Char × List Char) :=
  (stripSendKeyword l).bind fun r1 =>
  (takePlus isPySpace r1).bind fun pr2 =>
  (takePlus Char.isDigit pr2.2).bind fun pr3 =>
  let frr := matchOptFrac pr3.2
  (takePlus isPySpace frr.2).bind fun pr4 =>
  (matchAssetAt pr4.2).bind fun pr5 =>
  (takePlus isPySpace pr5.2).bind fun pr6 =>
  (if startsWithList "to".data pr6.2 then some (pr6.2.drop 2) else none).bind fun r7 =>
  (takePlus isPySpace r7).bind fun pr8 =>
  (matchAddrAt pr8.2).map fun pr9 => (pr3.1 ++ frr.1, pr5.1, pr9.1)

/-- Leftmost match of the strict single-recipient send pattern. -/
def findSendMatch (message_lower : List Char) : Option (List Char × List Char × List Char) :=
  scanOpt matchSendAt message_lower

/-! ### The intent router `parse_intent` -/

/-- The structured intents produced by `parse_intent` (the `"type"` field of
the returned dict, together with the extracted parameters; `query`/`message`
fields that merely echo the input are carried where the dict has them). -/
inductive Intent where
  | wallet_operations (private_key : Option (List Char))
  | balance_check (address : Option (List Char))
  | security_analysis (target : Option (List Char)) (target_type : String)
  | blockchain_data (query : List Char)
  | nft_operations (address : Option (List Char))
  | price_monitoring (query : List Char)
  | send_transaction (amount : ℚ) (asset : List Char) (recipient : List Char)
  | bulk_transaction (query : List Char)
  | transaction_help (query : List Char)
  | transaction_analysis (query : List Char)
  | governance_info (query : List Char)
  | help
  | general (message : List Char)
deriving DecidableEq

def wallet_patterns : List (List Char) :=
  ["load wallet".data, "import wallet".data, "wallet status".data, "my address".data,
   "private key".data]

def balance_patterns : List (List Char) :=
  ["balance".data, "check balance".data, "my balance".data, "show balance".data]

def security_patterns : List (List Char) :=
  ["security".data, "safe".data, "malicious".data, "check address".data, "analyze".data]

def blockchain_patterns : List (List Char) :=
  ["block".data, "transaction".data, "tx".data, "contract".data, "asset info".data]

def nft_patterns : List (List Char) :=
  ["nft".data, "nep11".data, "collectible".data, "non-fungible".data]

def price_patterns : List (List Char) :=
  ["price".data, "alert".data, "monitor".data, "track price".data]

def send_patterns : List (List Char) :=
  ["send".data, "transfer".data, "pay".data]

def tx_analysis_patterns : List (List Char) :=
  ["transaction history".data, "tx history".data, "recent transactions".data]

def gov_patterns : List (List Char) :=
  ["governance".data, "committee".data, "candidate".data, "vote".data, "voting".data]

def help_exact : List (List Char) :=
  ["help".data, "?".data, "commands".data, "what can you do".data]

/-- `any(pattern in message_lower for pattern in pats)`. -/
def anyPatIn (pats : List (List Char)) (message_lower : List Char) : Bool :=
  pats.any (fun p => inStr p message_lower)

/-- The bulk test of the send branch:
`'bulk' in message_lower or 'multiple' in message_lower or ',' in message`. -/
def bulkCond (message message_lower : List Char) : Bool :=
  inStr "bulk".data message_lower || inStr "multiple".data message_lower ||
    message.contains ','

/-- The security-branch target selection (address, then token, then URL). -/
def securityTarget (message : List Char) : Option (List Char) × String :=
  match findAddress message with
  | some a => (some a, "address")
  | none =>
    match findToken message with
    | some t => (some t, "token")
    | none =>
      match findUrl message with
      | some u => (some u, "url")
      | none => (none, "address")

/-- `NeoXBridgeComprehensiveAgent.parse_intent`: the ordered keyword router
(wallet, balance, security, blockchain data, NFT, price, send/transfer with
its bulk/strict/help sub-rule, transaction history, governance, exact-match
help, general fallback), over the pre-computed `message_lower` (the Python
code binds `message_lower = message.lower()` once at the top). -/
def parseIntentLower (message message_lower : List Char) : Intent :=
  if anyPatIn wallet_patterns message_lower then
    Intent.wallet_operations (findPrivateKey message)
  else if anyPatIn balance_patterns message_lower then
    Intent.balance_check (findAddress message)
  else if anyPatIn security_patterns message_lower then
    Intent.security_analysis (securityTarget message).1 (securityTarget message).2
  else if anyPatIn blockchain_patterns message_lower then
    Intent.blockchain_data message
  else if anyPatIn nft_patterns message_lower then
    Intent.nft_operations (findAddress message)
  else if anyPatIn price_patterns message_lower then
    Intent.price_monitoring message
  else if anyPatIn send_patterns message_lower then
    if bulkCond message message_lower then
      Intent.bulk_transaction message
    else
      match findSendMatch message_lower with
      | some g => Intent.send_transaction (parseAmount g.1) (upperStr g.2.1) g.2.2
      | none => Intent.transaction_help message
  else if anyPatIn tx_analysis_patterns message_lower then
    Intent.transaction_analysis message
  else if anyPatIn gov_patterns message_lower then
    Intent.governance_info message
  else if help_exact.contains message_lower then
    Intent.help
  else
    Intent.general message

/-- `NeoXBridgeComprehensiveAgent.parse_intent` (entry point). -/
def parse_intent (message : List Char) : Intent :=
  parseIntentLower message (lowerStr message)

/-! ### Claim C1: fixed priority order of the router -/

/-- The intent categories of the router, in source order. -/
inductive Cat where
  | wallet | balance | security | blockchain | nft | price | send | txhist | gov | help
deriving DecidableEq

/-- The fixed priority order in which `parse_intent` tests its categories. -/
def catOrder : List Cat :=
  [Cat.wallet, Cat.balance, Cat.security, Cat.blockchain, Cat.nft, Cat.price,
   Cat.send, Cat.txhist, Cat.gov, Cat.help]

/-- Whether a category's trigger fires on a message: substring membership of
one of its patterns in the lower-cased message for the first nine categories,
exact match against the four help strings for the last. -/
def catTrigger (c : Cat) (message : List Char) : Bool :=
  match c with
  | Cat.wallet => anyPatIn wallet_patterns (lowerStr message)
  | Cat.balance => anyPatIn balance_patterns (lowerStr message)
  | Cat.security => anyPatIn security_patterns (lowerStr message)
  | Cat.blockchain => anyPatIn blockchain_patterns (lowerStr message)
  | Cat.nft => anyPatIn nft_patterns (lowerStr message)
  | Cat.price => anyPatIn price_patterns (lowerStr message)
  | Cat.send => anyPatIn send_patterns (lowerStr message)
  | Cat.txhist => anyPatIn tx_analysis_patterns (lowerStr message)
  | Cat.gov => anyPatIn gov_patterns (lowerStr message)
  | Cat.help => help_exact.contains (lowerStr message)

/-- The earliest category (in the router's fixed order) whose trigger fires
on the message, if any — the category the specification says must win. -/
def firstTriggeredCat (message : List Char) : Option Cat :=
  catOrder.find? (fun c => catTrigger c message)

/-- The category an intent belongs to (`none` for the `general` fallback).
All three outcomes of the send branch — bulk, strict single-recipient and
transaction help — belong to the send/transfer category. -/
def intentCat : Intent → Option Cat
  | Intent.wallet_operations _ => some Cat.wallet
  | Intent.balance_check _ => some Cat.balance
  | Intent.security_analysis _ _ => some Cat.security
  | Intent.blockchain_data _ => some Cat.blockchain
  | Intent.nft_operations _ => some Cat.nft
  | Intent.price_monitoring _ => some Cat.price
  | Intent.send_transaction _ _ _ => some Cat.send
  | Intent.bulk_transaction _ => some Cat.send
  | Intent.transaction_help _ => some Cat.send
  | Intent.transaction_analysis _ => some Cat.txhist
  | Intent.governance_info _ => some Cat.gov
  | Intent.help => some Cat.help
  | Intent.general _ => none

/-- C1: `parse_intent` always answers in the earliest-triggered category of
the fixed order wallet, balance, security, blockchain data, NFT, price,
send/transfer, transaction history, governance, exact-match help — a later
category is never returned while an earlier category's trigger is present,
and when no trigger is present the answer is the `general` fallback
(category `none` on both sides). -/
theorem C1_router_priority_order (message : List Char) :
    intentCat (parse_intent message) = firstTriggeredCat message := by
  unfold parse_intent parseIntentLower firstTriggeredCat catOrder
  simp only [catTrigger, List.find?]
  cases h1 : anyPatIn wallet_patterns (lowerStr message)
  · simp only [h1, Bool.false_eq_true, reduceIte]
    cases h2 : anyPatIn balance_patterns (lowerStr message)
    · simp only [h2, Bool.false_eq_true, reduceIte]
      cases h3 : anyPatIn security_patterns (lowerStr message)
      · simp only [h3, Bool.false_eq_true, reduceIte]
        cases h4 : anyPatIn blockchain_patterns (lowerStr message)
        · simp only [h4, Bool.false_eq_true, reduceIte]
          cases h5 : anyPatIn nft_patterns (lowerStr message)
          · simp only [h5, Bool.false_eq_true, reduceIte]
            cases h6 : anyPatIn price_patterns (lowerStr message)
            · simp only [h6, Bool.false_eq_true, reduceIte]
              cases h7 : anyPatIn send_patterns (lowerStr message)
              · simp only [h7, Bool.false_eq_true, reduceIte]
                cases h8 : anyPatIn tx_analysis_patterns (lowerStr message)
                · simp only [h8, Bool.false_eq_true, reduceIte]
                  cases h9 : anyPatIn gov_patterns (lowerStr message)
                  · simp only [h9, Bool.false_eq_true, reduceIte]
                    cases h10 : help_exact.contains (lowerStr message)
                    · simp only [h10, Bool.false_eq_true, reduceIte, intentCat]
                    · simp only [h10, reduceIte, intentCat]
                  · simp only [h9, reduceIte, intentCat]
                · simp only [h8, reduceIte, intentCat]
              · simp only [h7, reduceIte]
                cases hb : bulkCond message (lowerStr message)
                · simp only [hb, Bool.false_eq_true, reduceIte]
                  cases hm : findSendMatch (lowerStr message)
                  · simp only [hm, intentCat]
                  · simp only [hm, intentCat]
                · simp only [hb, reduceIte, intentCat]
            · simp only [h6, reduceIte, intentCat]
          · simp only [h5, reduceIte, intentCat]
        · simp only [h4, reduceIte, intentCat]
      · simp only [h3, reduceIte, intentCat]
    · simp only [h2, reduceIte, intentCat]
  · simp only [h1, reduceIte, intentCat]

/-! ### Claims C2 and C3: the send branch

Supporting lemmas: every capture group of the strict send pattern is a
contiguous piece of the scanned text, so the recipient group is a substring
of the lower-cased message (this is what makes the extracted recipient the
lower-cased form of the address the user typed). -/

theorem isPrefix_cons_cons (c : Char) (m l : List Char) (h : m <+: l) :
    c :: m <+: c :: l := by
  obtain ⟨t, ht⟩ := h
  exact ⟨t, by rw [List.cons_append, ht]⟩

theorem takeClass_rest_suffix (p : Char → Bool) :
    ∀ (n : Nat) (l m rest : List Char), takeClass p n l = some (m, rest) → rest <:+ l := by
  intro n
  induction n with
  | zero =>
    intro l m rest h
    simp only [takeClass, Option.some.injEq, Prod.mk.injEq] at h
    rw [← h.2]
  | succ k ih =>
    intro l m rest h
    cases l with
    | nil => simp [takeClass] at h
    | cons c cs =>
      simp only [takeClass] at h
      by_cases hc : p c = true
      · simp only [hc, if_true, Option.map_eq_some'] at h
        obtain ⟨a, ha, he⟩ := h
        cases he
        exact (ih cs a.1 a.2 ha).trans (List.suffix_cons c cs)
      · simp [hc] at h

theorem takeClass_matched_front (p : Char → Bool) :
    ∀ (n : Nat) (l m rest : List Char), takeClass p n l = some (m, rest) → m <+: l := by
  intro n
  induction n with
  | zero =>
    intro l m rest h
    simp only [takeClass, Option.some.injEq, Prod.mk.injEq] at h
    rw [← h.1]
    exact List.nil_prefix
  | succ k ih =>
    intro l m rest h
    cases l with
    | nil => simp [takeClass] at h
    | cons c cs =>
      simp only [takeClass] at h
      by_cases hc : p c = true
      · simp only [hc, if_true, Option.map_eq_some'] at h
        obtain ⟨a, ha, he⟩ := h
        cases he
        exact isPrefix_cons_cons c a.1 cs (ih cs a.1 a.2 ha)
      · simp [hc] at h

theorem takePlus_rest_suffix (p : Char → Bool) (l : List Char) (pr : List Char × List Char)
    (h : takePlus p l = some pr) : pr.2 <:+ l := by
  simp only [takePlus] at h
  cases he : (l.takeWhile p).isEmpty <;> simp only [he, reduceIte, Bool.false_eq_true] at h
  · cases h
    exact List.drop_suffix _ l
  · exact Option.noConfusion h

theorem matchOptFrac_rest_suffix (l : List Char) : (matchOptFrac l).2 <:+ l := by
  unfold matchOptFrac
  split
  · rename_i rest
    cases hp : takePlus Char.isDigit rest with
    | none => simp only [hp]; exact List.suffix_refl _
    | some pr =>
      obtain ⟨ds, r⟩ := pr
      simp only [hp]
      exact (takePlus_rest_suffix _ _ _ hp).trans (List.suffix_cons _ _)
  · exact List.suffix_refl _

theorem stripSendKeyword_suffix (l r : List Char) (h : stripSendKeyword l = some r) :
    r <:+ l := by
  unfold stripSendKeyword at h
  split_ifs at h <;> (cases h; exact List.drop_suffix _ l)

theorem matchAssetAt_rest_suffix (l : List Char) (pr : List Char × List Char)
    (h : matchAssetAt l = some pr) : pr.2 <:+ l := by
  unfold matchAssetAt at h
  split_ifs at h <;> (cases h; exact List.drop_suffix _ l)

theorem matchAddrAt_matched_front (l : List Char) (pr : List Char × List Char)
    (h : matchAddrAt l = some pr) : pr.1 <+: l := by
  cases l with
  | nil => simp [matchAddrAt] at h
  | cons c cs =>
    simp only [matchAddrAt] at h
    by_cases hc : (c == 'N' || c == 'n') = true
    · simp only [hc, if_true, Option.map_eq_some'] at h
      obtain ⟨a, ha, he⟩ := h
      cases he
      exact isPrefix_cons_cons c a.1 cs (takeClass_matched_front _ _ _ _ _ ha)
    · simp [hc] at h

theorem matchSendAt_recipient_within (l : List Char) (g : List Char × List Char × List Char)
    (h : matchSendAt l = some g) : g.2.2 <:+: l := by
  unfold matchSendAt at h
  obtain ⟨r1, h1, h⟩ := Option.bind_eq_some.mp h
  obtain ⟨pr2, h2, h⟩ := Option.bind_eq_some.mp h
  obtain ⟨pr3, h3, h⟩ := Option.bind_eq_some.mp h
  obtain ⟨pr4, h4, h⟩ := Option.bind_eq_some.mp h
  obtain ⟨pr5, h5, h⟩ := Option.bind_eq_some.mp h
  obtain ⟨pr6, h6, h⟩ := Option.bind_eq_some.mp h
  obtain ⟨r7, h7, h⟩ := Option.bind_eq_some.mp h
  obtain ⟨pr8, h8, h⟩ := Option.bind_eq_some.mp h
  obtain ⟨pr9, h9, he⟩ := Option.map_eq_some'.mp h
  have hr7 : r7 <:+ pr6.2 := by
    by_cases ht : startsWithList "to".data pr6.2 = true
    · simp only [ht, if_true, Option.some.injEq] at h7
      rw [← h7]; exact List.drop_suffix _ _
    · simp [ht] at h7
  have hsuf : pr8.2 <:+ l :=
    ((((((((takePlus_rest_suffix _ _ _ h8).trans hr7).trans
      (takePlus_rest_suffix _ _ _ h6)).trans
      (matchAssetAt_rest_suffix _ _ h5)).trans
      (takePlus_rest_suffix _ _ _ h4)).trans
      (matchOptFrac_rest_suffix pr3.2)).trans
      (takePlus_rest_suffix _ _ _ h3)).trans
      (takePlus_rest_suffix _ _ _ h2)).trans
      (stripSendKeyword_suffix _ _ h1)
  have hpre : g.2.2 <+: pr8.2 := by
    have := matchAddrAt_matched_front _ _ h9
    rw [← he]
    exact this
  exact hpre.isInfix.trans hsuf.isInfix

theorem scanOpt_eq_some {α : Type} (f : List Char → Option α) :
    ∀ (l : List Char) (r : α), scanOpt f l = some r → ∃ t, t <:+ l ∧ f t = some r := by
  intro l
  induction l with
  | nil => intro r h; exact ⟨[], List.suffix_refl _, h⟩
  | cons c cs ih =>
    intro r h
    simp only [scanOpt] at h
    cases hf : f (c :: cs) with
    | some v => rw [hf] at h; cases h; exact ⟨c :: cs, List.suffix_refl _, hf⟩
    | none =>
      rw [hf] at h
      obtain ⟨t, ht, hft⟩ := ih r h
      exact ⟨t, ht.trans (List.suffix_cons c cs), hft⟩

theorem startsWithList_self_append (needle t : List Char) :
    startsWithList needle (needle ++ t) = true := by
  induction needle with
  | nil => rfl
  | cons c cs ih => simp [startsWithList, ih]

theorem inStr_append_of_startsWith (needle : List Char) :
    ∀ (s t : List Char), startsWithList needle t = true → inStr needle (s ++ t) = true := by
  intro s
  induction s with
  | nil => intro t h; cases t <;> simp_all [inStr]
  | cons c cs ih => intro t h; simp [inStr, ih t h]

theorem inStr_of_within (needle l : List Char) (h : needle <:+: l) : inStr needle l = true := by
  obtain ⟨s, t, hst⟩ := h
  rw [← hst, List.append_assoc]
  exact inStr_append_of_startsWith needle s (needle ++ t) (startsWithList_self_append needle t)

/-- If the strict send pattern matches anywhere in the scanned text, the
extracted recipient group occurs verbatim in that text. -/
theorem findSendMatch_recipient_inStr (ml : List Char) (g : List Char × List Char × List Char)
    (h : findSendMatch ml = some g) : inStr g.2.2 ml = true := by
  obtain ⟨t, ht, hft⟩ := scanOpt_eq_some matchSendAt ml g h
  exact inStr_of_within _ _ ((matchSendAt_recipient_within t g hft).trans ht.isInfix)

/-- C2 (counterexample to the claim as stated): the strict send pattern runs
over the lower-cased message, so for the message
`send 5 NEO to NiEtVMWVYgpXrWkRTMwRaMJtJ41gD3912N` the extracted recipient is
the lower-cased form of the address, not the address as typed: the claimed
intent (with `recipient=<address>`) is not returned. Amount and asset are as
claimed. -/
theorem C2_counterexample :
    parse_intent "send 5 NEO to NiEtVMWVYgpXrWkRTMwRaMJtJ41gD3912N".data ≠
      Intent.send_transaction 5 "NEO".data "NiEtVMWVYgpXrWkRTMwRaMJtJ41gD3912N".data ∧
    parse_intent "send 5 NEO to NiEtVMWVYgpXrWkRTMwRaMJtJ41gD3912N".data =
      Intent.send_transaction 5 "NEO".data "nietvmwvygpxrwkrtmwramjtj41gd3912n".data := by
  constructor
  · decide
  · decide

/-- C2 (amended): for a message that reaches the send category (a send
keyword is present and no earlier-priority trigger fires) and is not routed
by the bulk rule, `parse_intent` returns a `send_transaction` intent exactly
when the strict pattern matches the lower-cased message, with the amount
parsed as a number, the asset upper-cased, and the recipient equal to the
matched address group, which occurs verbatim in the lower-cased message
(hence is the lower-cased form of the address the user typed); when the
strict pattern does not match, the result is the transaction-help intent,
not a send intent and not an error. -/
theorem C2_send_parse_corrected (message : List Char)
    (hw : anyPatIn wallet_patterns (lowerStr message) = false)
    (hb : anyPatIn balance_patterns (lowerStr message) = false)
    (hs : anyPatIn security_patterns (lowerStr message) = false)
    (hd : anyPatIn blockchain_patterns (lowerStr message) = false)
    (hn : anyPatIn nft_patterns (lowerStr message) = false)
    (hp : anyPatIn price_patterns (lowerStr message) = false)
    (hsend : anyPatIn send_patterns (lowerStr message) = true)
    (hbulk : bulkCond message (lowerStr message) = false) :
    (∀ a asset r, findSendMatch (lowerStr message) = some (a, asset, r) →
        parse_intent message = Intent.send_transaction (parseAmount a) (upperStr asset) r ∧
          inStr r (lowerStr message) = true) ∧
    (findSendMatch (lowerStr message) = none →
        parse_intent message = Intent.transaction_help message) := by
  unfold parse_intent parseIntentLower
  simp only [hw, hb, hs, hd, hn, hp, hsend, hbulk, Bool.false_eq_true, reduceIte]
  constructor
  · intro a asset r hm
    rw [hm]
    exact ⟨rfl, findSendMatch_recipient_inStr _ _ hm⟩
  · intro hm
    rw [hm]

/-- C2 witness: `send 5 NEO to NiEtVMWVYgpXrWkRTMwRaMJtJ41gD3912N` parses to
a send intent with amount 5, asset `NEO`, and the recipient occurring in the
lower-cased message. -/
theorem C2_send_parse_corrected_witness :
    parse_intent "send 5 NEO to NiEtVMWVYgpXrWkRTMwRaMJtJ41gD3912N".data =
      Intent.send_transaction (parseAmount "5".data) (upperStr "neo".data)
        "nietvmwvygpxrwkrtmwramjtj41gd3912n".data ∧
      inStr "nietvmwvygpxrwkrtmwramjtj41gd3912n".data
        (lowerStr "send 5 NEO to NiEtVMWVYgpXrWkRTMwRaMJtJ41gD3912N".data) = true :=
  (C2_send_parse_corrected "send 5 NEO to NiEtVMWVYgpXrWkRTMwRaMJtJ41gD3912N".data
      (by decide) (by decide) (by decide) (by decide) (by decide) (by decide)
      (by decide) (by decide)).1
    "5".data "neo".data "nietvmwvygpxrwkrtmwramjtj41gd3912n".data (by decide)

/-- C3 (counterexample to the claim as stated): the claim quantifies over
every message containing a send keyword, but a message that also contains an
earlier-priority trigger never reaches the send category: `balance, send
bulk` contains a send keyword, `bulk` and a comma, yet is classified as a
balance check, not a bulk transaction. -/
theorem C3_counterexample :
    anyPatIn send_patterns (lowerStr "balance, send bulk".data) = true ∧
    bulkCond "balance, send bulk".data (lowerStr "balance, send bulk".data) = true ∧
    parse_intent "balance, send bulk".data ≠
      Intent.bulk_transaction "balance, send bulk".data ∧
    parse_intent "balance, send bulk".data = Intent.balance_check none := by
  decide

/-- C3 (amended): for every message that reaches the send category (a send
keyword is present and no earlier-priority trigger fires), if the message
contains `bulk`, `multiple` or a comma, `parse_intent` returns the
bulk-transaction intent — even when the strict single-recipient pattern also
matches, because the bulk test is evaluated first. -/
theorem C3_bulk_precedence_corrected (message : List Char)
    (hw : anyPatIn wallet_patterns (lowerStr message) = false)
    (hb : anyPatIn balance_patterns (lowerStr message) = false)
    (hs : anyPatIn security_patterns (lowerStr message) = false)
    (hd : anyPatIn blockchain_patterns (lowerStr message) = false)
    (hn : anyPatIn nft_patterns (lowerStr message) = false)
    (hp : anyPatIn price_patterns (lowerStr message) = false)
    (hsend : anyPatIn send_patterns (lowerStr message) = true)
    (hbulk : bulkCond message (lowerStr message) = true) :
    parse_intent message = Intent.bulk_transaction message := by
  unfold parse_intent parseIntentLower
  simp only [hw, hb, hs, hd, hn, hp, hsend, hbulk, Bool.false_eq_true, reduceIte]

/-- C3 witness: `bulk send 5 neo to Naaaaaaaaaaaaaaaaaaaaaaaaaaaaaaaaa`
contains `bulk` and also matches the strict single-recipient pattern, and is
classified as a bulk transaction. -/
theorem C3_bulk_precedence_corrected_witness :
    parse_intent "bulk send 5 neo to Naaaaaaaaaaaaaaaaaaaaaaaaaaaaaaaaa".data =
      Intent.bulk_transaction "bulk send 5 neo to Naaaaaaaaaaaaaaaaaaaaaaaaaaaaaaaaa".data ∧
    findSendMatch (lowerStr "bulk send 5 neo to Naaaaaaaaaaaaaaaaaaaaaaaaaaaaaaaaa".data) ≠
      none :=
  ⟨C3_bulk_precedence_corrected "bulk send 5 neo to Naaaaaaaaaaaaaaaaaaaaaaaaaaaaaaaaa".data
      (by decide) (by decide) (by decide) (by decide) (by decide) (by decide)
      (by decide) (by decide),
    by decide⟩

/-! ### Claim C7: the session-context invariant of `src/agent.py`

`NeoXBridgeAgent.process_message` writes `context["last_address"]` in exactly
one place: from the result of `_extract_neo_address` (and only when that
extractor returned a match). No other method of the class writes the field,
and the top-level exception handler runs after the assignment, so the context
effect of one call is exactly the update modelled here. -/

/-- The per-session mutable context of `NeoXBridgeAgent.__init__` (the
preference bag and start time are irrelevant to the claims and dropped). -/
structure SessionContext where
  last_address : Option (List Char)
  pending_transaction : Option (List Char)

/-- Try regex `\bN[A-Za-z0-9]{33}\b` given the previous character. -/
def matchBoundedAddrAt (prev : Option Char) (l : List Char) : Option (List Char) :=
  if (match prev with | none => true | some c => !isWordChar c) then
    match l with
    | c :: rest =>
      if c == 'N' then
        match takeClass isAsciiAlnum 33 rest with
        | some (m, rest2) =>
          (match rest2 with
           | [] => some (c :: m)
           | d :: _ => if isWordChar d then none else some (c :: m))
        | none => none
      else none
    | [] => none
  else none

/-- `NeoXBridgeAgent._extract_neo_address`: first (leftmost) match of
`re.findall(r'\bN[A-Za-z0-9]{33}\b', message)`, or `None`. -/
def extract_neo_address (message : List Char) : Option (List Char) :=
  scanPrev matchBoundedAddrAt none message

/-- The context effect of `NeoXBridgeAgent.process_message`: when the
extractor finds an address the session's `last_address` is overwritten with
it, otherwise the context is unchanged. -/
def processMessageCtx (ctx : SessionContext) (message : List Char) : SessionContext :=
  match extract_neo_address message with
  | some a => { ctx with last_address := some a }
  | none => ctx

/-- The address shape of the extractor's pattern: 34 characters, `N` followed
by 33 alphanumerics. -/
def addrShape (a : List Char) : Bool :=
  match a with
  | c :: rest => c == 'N' && rest.length == 33 && rest.all isAsciiAlnum
  | [] => false

/-- The invariant of the claim: `last_address` is null or address-shaped. -/
def lastAddressInv (ctx : SessionContext) : Prop :=
  ∀ a, ctx.last_address = some a → addrShape a = true

theorem takeClass_length_all (p : Char → Bool) :
    ∀ (n : Nat) (l m rest : List Char), takeClass p n l = some (m, rest) →
      m.length = n ∧ m.all p = true := by
  intro n
  induction n with
  | zero =>
    intro l m rest h
    simp only [takeClass, Option.some.injEq, Prod.mk.injEq] at h
    rw [← h.1]
    exact ⟨rfl, rfl⟩
  | succ k ih =>
    intro l m rest h
    cases l with
    | nil => simp [takeClass] at h
    | cons c cs =>
      simp only [takeClass] at h
      by_cases hc : p c = true
      · simp only [hc, if_true, Option.map_eq_some'] at h
        obtain ⟨a, ha, he⟩ := h
        cases he
        obtain ⟨hl, hall⟩ := ih cs a.1 a.2 ha
        refine ⟨by simp [hl], ?_⟩
        simp [List.all_cons, hc, hall]
      · simp [hc] at h

theorem matchBoundedAddrAt_shape (prev : Option Char) (l : List Char) (a : List Char)
    (h : matchBoundedAddrAt prev l = some a) : addrShape a = true := by
  unfold matchBoundedAddrAt at h
  split_ifs at h
  cases l with
  | nil => exact Option.noConfusion h
  | cons c rest =>
    simp only at h
    by_cases hc : (c == 'N') = true
    · rw [if_pos hc] at h
      cases ht : takeClass isAsciiAlnum 33 rest with
      | none => rw [ht] at h; exact Option.noConfusion h
      | some pr =>
        obtain ⟨m, rest2⟩ := pr
        rw [ht] at h
        obtain ⟨hl, hall⟩ := takeClass_length_all isAsciiAlnum 33 rest m rest2 ht
        have hm : a = c :: m := by
          cases rest2 with
          | nil => cases h; rfl
          | cons d ds =>
            simp only at h
            by_cases hd : isWordChar d = true
            · rw [if_pos hd] at h; exact Option.noConfusion h
            · rw [if_neg hd] at h; cases h; rfl
        rw [hm]
        simp only [addrShape, Bool.and_eq_true]
        exact ⟨⟨hc, by simp [hl]⟩, hall⟩
    · rw [if_neg hc] at h
      exact Option.noConfusion h

theorem scanPrev_eq_some {α : Type} (f : Option Char → List Char → Option α) :
    ∀ (prev : Option Char) (l : List Char) (r : α), scanPrev f prev l = some r →
      ∃ p t, f p t = some r := by
  intro prev l
  induction l generalizing prev with
  | nil => intro r h; exact ⟨prev, [], h⟩
  | cons c cs ih =>
    intro r h
    simp only [scanPrev] at h
    cases hf : f prev (c :: cs) with
    | some v => rw [hf] at h; cases h; exact ⟨prev, c :: cs, hf⟩
    | none => rw [hf] at h; exact ih (some c) r h

/-- Anything `_extract_neo_address` returns is address-shaped. -/
theorem extract_neo_address_shape (message a : List Char)
    (h : extract_neo_address message = some a) : addrShape a = true := by
  obtain ⟨p, t, hft⟩ := scanPrev_eq_some matchBoundedAddrAt none message a h
  exact matchBoundedAddrAt_shape p t a hft

/-- C7: every call to `process_message` preserves the invariant that
`last_address` is either null or a 34-character token shaped `N` followed by
33 alphanumerics, because the field is only ever assigned from the output of
the address extractor. -/
theorem C7_last_address_invariant (ctx : SessionContext) (message : List Char)
    (h : lastAddressInv ctx) : lastAddressInv (processMessageCtx ctx message) := by
  intro a ha
  unfold processMessageCtx at ha
  cases he : extract_neo_address message with
  | none => rw [he] at ha; exact h a ha
  | some b =>
    rw [he] at ha
    simp only [Option.some.injEq] at ha
    rw [← ha]
    exact extract_neo_address_shape message b he

/-- C7 witness: starting from the fresh context of `__init__`
(`last_address = None`), processing a message containing an address keeps the
invariant (and the extractor stores the address-shaped token). -/
theorem C7_last_address_invariant_witness :
    lastAddressInv (processMessageCtx ⟨none, none⟩
      "check balance for NiEtVMWVYgpXrWkRTMwRaMJtJ41gD3912N".data) ∧
    (processMessageCtx ⟨none, none⟩
      "check balance for NiEtVMWVYgpXrWkRTMwRaMJtJ41gD3912N".data).last_address =
      some "NiEtVMWVYgpXrWkRTMwRaMJtJ41gD3912N".data :=
  ⟨C7_last_address_invariant ⟨none, none⟩ _ (fun a ha => Option.noConfusion ha),
    by decide⟩

/-! ### A model of Python dict/JSON values

The HTTP clients and the tools of `src/tools.py` pass Python dicts around;
they are modelled by the inductive `Json`. Numbers are exact rationals. -/

inductive Json where
  | null
  | bool (b : Bool)
  | num (q : ℚ)
  | str (s : String)
  | arr (xs : List Json)
  | obj (kvs : List (String × Json))

/-- Key lookup in an association list (first binding wins, as in a dict). -/
def jsonLookup : List (String × Json) → String → Option Json
  | [], _ => none
  | (k, v) :: rest, key => if k = key then some v else jsonLookup rest key

/-- Python `key in d` (for dict values; false on non-dicts). -/
def Json.hasKey : Json → String → Bool
  | Json.obj kvs, k => (jsonLookup kvs k).isSome
  | _, _ => false

/-- Python `d.get(key, default)`. -/
def Json.getD : Json → String → Json → Json
  | Json.obj kvs, k, d => (jsonLookup kvs k).getD d
  | _, _, d => d

/-- Python `d[key]`: the value, or a raised `KeyError`/`TypeError`. -/
def pyGet (j : Json) (k : String) : Except String Json :=
  match j with
  | Json.obj kvs =>
    match jsonLookup kvs k with
    | some v => Except.ok v
    | none => Except.error ("KeyError: " ++ k)
  | _ => Except.error "TypeError: value is not subscriptable"

/-- Python truthiness of a value (used for `if not d[key]:`). -/
def pyTruthy : Json → Bool
  | Json.null => false
  | Json.bool b => b
  | Json.num q => decide (q ≠ 0)
  | Json.str s => decide (s ≠ "")
  | Json.arr xs => !xs.isEmpty
  | Json.obj kvs => !kvs.isEmpty

/-- Python `v == "1"` for a value taken out of a response mapping (true only
for the exact string). -/
def jsonEqStr (j : Json) (s : String) : Bool :=
  match j with
  | Json.str t => t = s
  | _ => false

/-! ### `src/tools.py`: `NeoXTools` (claims C8 and C9)

The class state read by the methods is the pair of hard-coded lists set in
`__init__` (`valid_addresses`, `malicious_addresses`); the embedding carries
them as a structure so the methods are functions of the instance, and
`NeoXTools.default` is the instance `__init__` builds. The `asyncio.sleep`
simulation delays and logging are dropped. -/

structure NeoXTools where
  valid_addresses : List String
  malicious_addresses : List String

/-- The instance state created by `NeoXTools.__init__`. -/
def NeoXTools.default : NeoXTools :=
  { valid_addresses :=
      ["NiEtVMWVYgpXrWkRTMwRaMJtJ41gD3912N",
       "NhGomKyZgSuYUGqrXHcpv1bNH9ntwvfm4c",
       "NUVPACMnKFhpuHjsRjhUvXz1XhqfGZYVtY"],
    malicious_addresses :=
      ["NMaliciousAddressExample123456789",
       "NPhishingScamAddress123456789ABC",
       "NScamWalletAddress901234567890123"] }

/-- Python `address.startswith('N')`. -/
def pyStartsWithN (s : String) : Bool :=
  match s.data with
  | c :: _ => c == 'N'
  | [] => false

/-- `NeoXTools.validate_address`: format checks (length 34, `N` prefix), then
the simulated network-existence check against `valid_addresses`. -/
def NeoXTools.validate_address (t : NeoXTools) (address : String) : Json :=
  if !pyTruthy (Json.str address) || address.length ≠ 34 then
    Json.obj [("is_valid", Json.bool false),
      ("reason", Json.str "Invalid length. Neo addresses must be 34 characters long."),
      ("format_valid", Json.bool false), ("network_exists", Json.bool false)]
  else if !pyStartsWithN address then
    Json.obj [("is_valid", Json.bool false),
      ("reason", Json.str "Invalid prefix. Neo addresses must start with 'N'."),
      ("format_valid", Json.bool false), ("network_exists", Json.bool false)]
  else
    let network_exists := t.valid_addresses.contains address
    Json.obj [("is_valid", Json.bool network_exists),
      ("reason", Json.str (if network_exists then "Valid address found on network"
        else "Address format is valid but not found on network")),
      ("format_valid", Json.bool true), ("network_exists", Json.bool network_exists),
      ("address", Json.str address)]

/-- `NeoXTools.check_address_security`: the malicious-list check, then the
validation-based tiers (the keys accessed always exist, so the dict accesses
are modelled with defaulted lookup). -/
def NeoXTools.check_address_security (t : NeoXTools) (address : String) : Json :=
  if t.malicious_addresses.contains address then
    Json.obj [("is_safe", Json.bool false), ("is_malicious", Json.bool true),
      ("reason", Json.str "Address flagged as malicious by security database"),
      ("risk_level", Json.str "high"), ("confidence", Json.num (95/100)),
      ("source", Json.str "GoPlus Labs Security Database")]
  else
    let validation := t.validate_address address
    if pyTruthy (validation.getD "format_valid" Json.null) &&
        pyTruthy (validation.getD "network_exists" Json.null) then
      Json.obj [("is_safe", Json.bool true), ("is_malicious", Json.bool false),
        ("reason", Json.str "Address appears safe and verified"),
        ("risk_level", Json.str "low"), ("confidence", Json.num (85/100)),
        ("source", Json.str "Network validation and security database")]
    else if pyTruthy (validation.getD "format_valid" Json.null) then
      Json.obj [("is_safe", Json.bool true), ("is_malicious", Json.bool false),
        ("reason", Json.str "Address format is valid, but not found on network"),
        ("risk_level", Json.str "medium"), ("confidence", Json.num (70/100)),
        ("source", Json.str "Format validation only")]
    else
      Json.obj [("is_safe", Json.bool false), ("is_malicious", Json.bool false),
        ("reason", Json.str "Invalid address format"),
        ("risk_level", Json.str "high"), ("confidence", Json.num 1),
        ("source", Json.str "Format validation")]

/-- Python `asset.upper()`. -/
def pyUpper (s : String) : String := String.mk (s.data.map asciiUpper)

/-- The mock transaction hash `"0x" + "a" * 62` of the success branch. -/
def mockTxHash : String := String.mk ('0' :: 'x' :: List.replicate 62 'a')

/-- `NeoXTools.send_transaction`: recipient format validation, the positive
amount guard, the supported-asset guard, the recipient security check (whose
failure yields the distinguished `security_blocked` outcome), then the
simulated success dict. Dict accesses run in the `Except` monad. -/
def NeoXTools.send_transaction (t : NeoXTools) (to_address : String) (amount : ℚ)
    (asset : String) : Except String Json := do
  let validation := t.validate_address to_address
  let fv ← pyGet validation "format_valid"
  if !pyTruthy fv then
    pure (Json.obj [("success", Json.bool false),
      ("error", Json.str "Invalid recipient address format"), ("tx_hash", Json.null)])
  else if amount ≤ 0 then
    pure (Json.obj [("success", Json.bool false),
      ("error", Json.str "Amount must be positive"), ("tx_hash", Json.null)])
  else if !(["NEO", "GAS"].contains (pyUpper asset)) then
    pure (Json.obj [("success", Json.bool false),
      ("error", Json.str "Unsupported asset. Only NEO and GAS are supported."),
      ("tx_hash", Json.null)])
  else
    let security_check := t.check_address_security to_address
    let is ← pyGet security_check "is_safe"
    if !pyTruthy is then
      let reason ← pyGet security_check "reason"
      let reasonStr := (match reason with | Json.str s => s | _ => "")
      pure (Json.obj [("success", Json.bool false),
        ("error", Json.str ("Security alert: " ++ reasonStr)),
        ("tx_hash", Json.null), ("security_blocked", Json.bool true)])
    else
      pure (Json.obj [("success", Json.bool true), ("tx_hash", Json.str mockTxHash),
        ("asset", Json.str (pyUpper asset)), ("amount", Json.num amount),
        ("recipient", Json.str to_address), ("status", Json.str "confirmed"),
        ("block_height", Json.num 12345678), ("gas_consumed", Json.str "0.5")])

/-- Reduction of an `Except` bind whose first computation is known to
succeed. -/
theorem bind_ok_eq {eps alp bet : Type} (e : Except eps alp) (a : alp)
    (f : alp → Except eps bet) (h : e = Except.ok a) :
    (do let x ← e; f x) = f a := by
  rw [h]; rfl

/-- Format-valid addresses (34 characters, `N` prefix) get
`format_valid = True` from `validate_address`. -/
theorem validate_address_format_valid (t : NeoXTools) (address : String)
    (hlen : address.length = 34) (hn : pyStartsWithN address = true) :
    pyGet (t.validate_address address) "format_valid" = Except.ok (Json.bool true) := by
  unfold NeoXTools.validate_address
  have hne : address ≠ "" := by
    intro he
    rw [he] at hlen
    exact absurd hlen (by decide)
  have h1 : (!pyTruthy (Json.str address) || address.length ≠ 34) = false := by
    simp [pyTruthy, hne, hlen]
  rw [h1]
  simp only [Bool.false_eq_true, reduceIte, hn, Bool.not_true]
  rfl

/-- C8: when a send reaches the recipient security check (format-valid
recipient, positive amount, supported asset) and the check reports the
address unsafe, `send_transaction` returns the distinguished security-block
outcome — `success=False` together with `security_blocked=True`, a
`tx_hash=None` and a `Security alert:` error; ordinary guard failures (for
example a non-positive amount), by contrast, carry no `security_blocked`
key at all. -/
theorem C8_security_block (t : NeoXTools) (to_address : String) (amount : ℚ) (asset : String)
    (reason : String)
    (hlen : to_address.length = 34) (hn : pyStartsWithN to_address = true)
    (hamt : 0 < amount) (hasset : ["NEO", "GAS"].contains (pyUpper asset) = true)
    (hblocked : pyGet (t.check_address_security to_address) "is_safe" =
      Except.ok (Json.bool false))
    (hreason : pyGet (t.check_address_security to_address) "reason" =
      Except.ok (Json.str reason)) :
    t.send_transaction to_address amount asset = Except.ok (Json.obj
      [("success", Json.bool false),
       ("error", Json.str ("Security alert: " ++ reason)),
       ("tx_hash", Json.null), ("security_blocked", Json.bool true)]) ∧
    (∀ amt : ℚ, amt ≤ 0 → ∃ j, t.send_transaction to_address amt asset = Except.ok j ∧
      j.hasKey "security_blocked" = false) := by
  have hv := validate_address_format_valid t to_address hlen hn
  constructor
  · unfold NeoXTools.send_transaction
    refine (bind_ok_eq _ _ _ hv).trans ?_
    beta_reduce
    rw [if_neg (by decide : ¬((!pyTruthy (Json.bool true)) = true))]
    rw [if_neg (not_le.mpr hamt)]
    rw [if_neg (by simp only [hasset]; decide)]
    refine (bind_ok_eq _ _ _ hblocked).trans ?_
    beta_reduce
    rw [if_pos (by decide : (!pyTruthy (Json.bool false)) = true)]
    refine (bind_ok_eq _ _ _ hreason).trans ?_
    rfl
  · intro amt hamt0
    refine ⟨Json.obj [("success", Json.bool false),
      ("error", Json.str "Amount must be positive"), ("tx_hash", Json.null)], ?_, rfl⟩
    unfold NeoXTools.send_transaction
    refine (bind_ok_eq _ _ _ hv).trans ?_
    beta_reduce
    rw [if_neg (by decide : ¬((!pyTruthy (Json.bool true)) = true))]
    rw [if_pos hamt0]
    rfl

/-- C8 witness: an instance whose malicious list contains a format-valid
(34-character) address blocks the send to it with the distinguished outcome. -/
theorem C8_security_block_witness :
    NeoXTools.send_transaction
      { NeoXTools.default with
        malicious_addresses := ["NAAAAAAAAAAAAAAAAAAAAAAAAAAAAAAAAA"] }
      "NAAAAAAAAAAAAAAAAAAAAAAAAAAAAAAAAA" 5 "NEO" = Except.ok (Json.obj
      [("success", Json.bool false),
       ("error", Json.str
         ("Security alert: " ++ "Address flagged as malicious by security database")),
       ("tx_hash", Json.null), ("security_blocked", Json.bool true)]) :=
  (C8_security_block
    { NeoXTools.default with
      malicious_addresses := ["NAAAAAAAAAAAAAAAAAAAAAAAAAAAAAAAAA"] }
    "NAAAAAAAAAAAAAAAAAAAAAAAAAAAAAAAAA" 5 "NEO"
    "Address flagged as malicious by security database"
    (by decide) (by decide) (by norm_num) (by decide) (by rfl) (by rfl)).1

/-- C9: the implicit input guards of `send_transaction` for a format-valid
recipient: a non-positive amount yields `success=False`,
`error="Amount must be positive"`, `tx_hash=None`; a positive amount with an
asset other than NEO/GAS (after upper-casing) yields the unsupported-asset
error with `tx_hash=None`. Both conclusions are constant dicts that hold for
every instance state `t`, so neither guard consults the recipient security
check (which is the only part of the method that reads the malicious list). -/
theorem C9_input_guards (t : NeoXTools) (to_address : String) (amount : ℚ) (asset : String)
    (hlen : to_address.length = 34) (hn : pyStartsWithN to_address = true) :
    (amount ≤ 0 →
      t.send_transaction to_address amount asset = Except.ok (Json.obj
        [("success", Json.bool false), ("error", Json.str "Amount must be positive"),
         ("tx_hash", Json.null)])) ∧
    (0 < amount → ["NEO", "GAS"].contains (pyUpper asset) = false →
      t.send_transaction to_address amount asset = Except.ok (Json.obj
        [("success", Json.bool false),
         ("error", Json.str "Unsupported asset. Only NEO and GAS are supported."),
         ("tx_hash", Json.null)])) := by
  have hv := validate_address_format_valid t to_address hlen hn
  constructor
  · intro hamt0
    unfold NeoXTools.send_transaction
    refine (bind_ok_eq _ _ _ hv).trans ?_
    beta_reduce
    rw [if_neg (by decide : ¬((!pyTruthy (Json.bool true)) = true))]
    rw [if_pos hamt0]
    rfl
  · intro hamt hasset
    unfold NeoXTools.send_transaction
    refine (bind_ok_eq _ _ _ hv).trans ?_
    beta_reduce
    rw [if_neg (by decide : ¬((!pyTruthy (Json.bool true)) = true))]
    rw [if_neg (not_le.mpr hamt)]
    rw [if_pos (by simp only [hasset]; decide)]
    rfl

/-- C9 witness: with the default instance and the valid recipient of the
mock data, `send -3 NEO` hits the positive-amount guard and `send 5 DOGE`
hits the unsupported-asset guard. -/
theorem C9_input_guards_witness :
    NeoXTools.send_transaction NeoXTools.default
      "NiEtVMWVYgpXrWkRTMwRaMJtJ41gD3912N" (-3) "NEO" = Except.ok (Json.obj
      [("success", Json.bool false), ("error", Json.str "Amount must be positive"),
       ("tx_hash", Json.null)]) ∧
    NeoXTools.send_transaction NeoXTools.default
      "NiEtVMWVYgpXrWkRTMwRaMJtJ41gD3912N" 5 "DOGE" = Except.ok (Json.obj
      [("success", Json.bool false),
       ("error", Json.str "Unsupported asset. Only NEO and GAS are supported."),
       ("tx_hash", Json.null)]) :=
  ⟨(C9_input_guards NeoXTools.default "NiEtVMWVYgpXrWkRTMwRaMJtJ41gD3912N" (-3) "NEO"
      (by decide) (by decide)).1 (by norm_num),
   (C9_input_guards NeoXTools.default "NiEtVMWVYgpXrWkRTMwRaMJtJ41gD3912N" 5 "DOGE"
      (by decide) (by decide)).2 (by norm_num) (by decide)⟩

/-! ### `neo_blockchain_tools.py`: `NeoAPIClient` (claim C6)

`_make_request` wraps `requests.post(url, json=payload).json()`; the outcome
of that HTTP interaction (parsed JSON, or a raised connection/timeout/parse
exception) is supplied by an environment function of the payload. The catch
in `_make_request` converts any exception into `{"error": str(e)}`. -/

/-- The HTTP layer: what `requests.post(...).json()` does for each payload. -/
def RpcEnv : Type := Json → Except String Json

/-- `NeoAPIClient._make_request`: build the JSON-RPC payload, post it, and
fail soft — any exception becomes an `{"error": ...}` dict. -/
def make_request (env : RpcEnv) (method : String) (params : Json) : Json :=
  let payload := Json.obj [("jsonrpc", Json.str "2.0"), ("method", Json.str method),
    ("params", params), ("id", Json.num 1)]
  match env payload with
  | Except.error e => Json.obj [("error", Json.str e)]
  | Except.ok j => j

/-- `NeoAPIClient.get_block_count`: `result["result"]["index"]` when a
`result` key is present, else the default `0`. Dict accesses on a malformed
response run in `Except` (they would raise `KeyError` in Python). -/
def get_block_count (env : RpcEnv) : Except String Json :=
  let result := make_request env "GetBlockCount" (Json.obj [])
  if result.hasKey "result" then do
    let r ← pyGet result "result"
    pyGet r "index"
  else pure (Json.num 0)

/-- `NeoAPIClient.get_best_block_hash`: `result["result"]["hash"]` or `""`. -/
def get_best_block_hash (env : RpcEnv) : Except String Json :=
  let result := make_request env "GetBestBlockHash" (Json.obj [])
  if result.hasKey "result" then do
    let r ← pyGet result "result"
    pyGet r "hash"
  else pure (Json.str "")

/-- `NeoAPIClient.get_contract_count`: `result["result"]["total counts"]` or `0`. -/
def get_contract_count (env : RpcEnv) : Except String Json :=
  let result := make_request env "GetContractCount" (Json.obj [])
  if result.hasKey "result" then do
    let r ← pyGet result "result"
    pyGet r "total counts"
  else pure (Json.num 0)

/-- `NeoAPIClient.get_candidate_count`: `result["result"]["total counts"]` or `0`. -/
def get_candidate_count (env : RpcEnv) : Except String Json :=
  let result := make_request env "GetCandidateCount" (Json.obj [])
  if result.hasKey "result" then do
    let r ← pyGet result "result"
    pyGet r "total counts"
  else pure (Json.num 0)

/-- `NeoAPIClient.get_asset_count`: `result["result"]["total counts"]` or `0`. -/
def get_asset_count (env : RpcEnv) : Except String Json :=
  let result := make_request env "GetAssetCount" (Json.obj [])
  if result.hasKey "result" then do
    let r ← pyGet result "result"
    pyGet r "total counts"
  else pure (Json.num 0)

/-- `NeoAPIClient.get_recent_blocks`: returns the `_make_request` result
unchanged. -/
def get_recent_blocks (env : RpcEnv) (limit : ℚ) : Json :=
  make_request env "GetBlockInfoList" (Json.obj [("Limit", Json.num limit)])

/-- `NeoAPIClient.get_committee`: returns the `_make_request` result
unchanged. -/
def get_committee (env : RpcEnv) : Json :=
  make_request env "GetCommittee" (Json.obj [])

/-- C6: when the underlying HTTP request raises (connection error or
timeout) on every payload, each Blockchain Data Client operation returns a
structured value and no exception reaches the caller: the count operations
return `0`, `get_best_block_hash` returns `""`, and the pass-through
operations return a mapping carrying an `"error"` key. -/
theorem C6_data_client_fail_soft (env : RpcEnv) (e : String) (limit : ℚ)
    (h : ∀ payload, env payload = Except.error e) :
    get_block_count env = Except.ok (Json.num 0) ∧
    get_best_block_hash env = Except.ok (Json.str "") ∧
    get_contract_count env = Except.ok (Json.num 0) ∧
    get_candidate_count env = Except.ok (Json.num 0) ∧
    get_asset_count env = Except.ok (Json.num 0) ∧
    get_recent_blocks env limit = Json.obj [("error", Json.str e)] ∧
    (get_recent_blocks env limit).hasKey "error" = true ∧
    get_committee env = Json.obj [("error", Json.str e)] := by
  refine ⟨?_, ?_, ?_, ?_, ?_, ?_, ?_, ?_⟩ <;>
    simp only [get_block_count, get_best_block_hash, get_contract_count,
      get_candidate_count, get_asset_count, get_recent_blocks, get_committee,
      make_request, h, Json.hasKey, jsonLookup] <;> rfl

/-- C6 witness: an HTTP layer that times out on every request. -/
theorem C6_data_client_fail_soft_witness :
    get_block_count (fun _ => Except.error "Connection timed out") =
      Except.ok (Json.num 0) ∧
    get_committee (fun _ => Except.error "Connection timed out") =
      Json.obj [("error", Json.str "Connection timed out")] :=
  ⟨(C6_data_client_fail_soft (fun _ => Except.error "Connection timed out")
      "Connection timed out" 10 (fun _ => rfl)).1,
   (C6_data_client_fail_soft (fun _ => Except.error "Connection timed out")
      "Connection timed out" 10 (fun _ => rfl)).2.2.2.2.2.2.2⟩

/-! ### `security_and_analysis_tools.py`: the security suite (claims C4, C5)

The GoPlusLabs HTTP interactions are supplied by a `GoPlusEnv`: one field per
endpoint gives the outcome of `session.get(...)` + `response.json()` (parsed
JSON, or a raised exception), and `enter` gives the outcome of the
`async with self.goplus_client` session creation. `_make_request` itself
catches and returns `{"error": str(e)}`, so transport failures surface as
error dicts; exceptions can still escape the client helpers (session
creation, or `float(...)` on malformed tax strings) and are what the
`try/except` of `comprehensive_security_check` catches. -/

/-- `SecurityResult` of `security_and_analysis_tools.py` (the `timestamp`
field only echoes the wall clock and is dropped). -/
structure SecurityResult where
  is_safe : Bool
  risk_level : String
  confidence : ℚ
  checks_passed : Nat
  total_checks : Nat
  details : Json

/-- `TokenAnalysis` of `security_and_analysis_tools.py`. -/
structure TokenAnalysis where
  token_address : String
  symbol : Json
  name : Json
  is_honeypot : Bool
  can_sell : Bool
  honeypot_reason : Json
  buy_tax : ℚ
  sell_tax : ℚ
  slippage_modifiable : Bool
  is_proxy : Bool
  is_mintable : Bool
  owner_change_balance : Bool
  hidden_owner : Bool
  anti_whale : Bool
  trading_cooldown : Bool

/-- The external interactions of one `comprehensive_security_check` run. -/
structure GoPlusEnv where
  enter : Except String Unit
  addressSecurityResp : Except String Json
  tokenSecurityResp : Except String Json
  dappSecurityResp : Except String Json
  phishingResp : Except String Json

/-- `GoPlusLabsClient._make_request`: any exception from the HTTP call
becomes `{"error": str(e)}` (a non-200 status is a normal response carrying
an error dict). -/
def goplusRequest (resp : Except String Json) : Json :=
  match resp with
  | Except.error e => Json.obj [("error", Json.str e)]
  | Except.ok j => j

/-- `GoPlusLabsClient.check_address_security`: `result["result"]` when
present, else an error dict. -/
def GoPlusLabsClient.check_address_security (resp : Except String Json) : Json :=
  let result := goplusRequest resp
  if result.hasKey "result" then result.getD "result" Json.null
  else Json.obj [("error", Json.str "Could not check address security")]

/-- `GoPlusLabsClient.check_dapp_security`: `result.get("result", {})`. -/
def GoPlusLabsClient.check_dapp_security (resp : Except String Json) : Json :=
  (goplusRequest resp).getD "result" (Json.obj [])

/-- `GoPlusLabsClient.check_phishing_site`: `result.get("result", {})`. -/
def GoPlusLabsClient.check_phishing_site (resp : Except String Json) : Json :=
  (goplusRequest resp).getD "result" (Json.obj [])

/-- Python `str.lower`. -/
def pyLower (s : String) : String := String.mk (lowerStr s.data)

/-- The numeric core of Python `float(str)`: digits with an optional
fraction (a conservative model — exponents and surrounding whitespace,
which the repository's data never produces, are rejected). -/
def parseFloatCore (l : List Char) : Option ℚ :=
  let ip := l.takeWhile Char.isDigit
  if ip.isEmpty then none
  else
    match l.drop ip.length with
    | [] => some ((digitsToNat ip : ℚ))
    | '.' :: fr =>
      if !fr.isEmpty && fr.all Char.isDigit then
        some (mkRat (digitsToNat ip * 10 ^ fr.length + digitsToNat fr) (10 ^ fr.length))
      else none
    | _ => none

/-- Python `float(str)` with an optional leading minus sign. -/
def parseFloatStr (l : List Char) : Option ℚ :=
  match l with
  | '-' :: rest => (parseFloatCore rest).map Neg.neg
  | _ => parseFloatCore l

/-- Python `float(value)` on a JSON value: numbers and booleans convert,
numeric strings parse, anything else raises. -/
def pyFloatOfJson : Json → Except String ℚ
  | Json.num q => Except.ok q
  | Json.bool b => Except.ok (if b then 1 else 0)
  | Json.str s =>
    (match parseFloatStr s.data with
     | some q => Except.ok q
     | none => Except.error "ValueError: could not convert string to float")
  | _ => Except.error "TypeError: float() argument must be a string or a real number"

/-- `GoPlusLabsClient.check_token_security`: build a `TokenAnalysis` from the
per-token response data (the two `float(...)` conversions can raise, in the
order the constructor arguments are evaluated), or return the safe defaults
when the response carries no data for the token. -/
def GoPlusLabsClient.check_token_security (resp : Except String Json)
    (token_address : String) : Except String TokenAnalysis :=
  let result := goplusRequest resp
  if result.hasKey "result" &&
      (result.getD "result" Json.null).hasKey (pyLower token_address) then
    let token_data := (result.getD "result" Json.null).getD (pyLower token_address) Json.null
    match pyFloatOfJson (token_data.getD "buy_tax" (Json.str "0")) with
    | Except.error e => Except.error e
    | Except.ok buy_tax =>
      match pyFloatOfJson (token_data.getD "sell_tax" (Json.str "0")) with
      | Except.error e => Except.error e
      | Except.ok sell_tax =>
        Except.ok
          { token_address := token_address,
            symbol := token_data.getD "token_symbol" (Json.str "UNKNOWN"),
            name := token_data.getD "token_name" (Json.str "Unknown Token"),
            is_honeypot := jsonEqStr (token_data.getD "is_honeypot" Json.null) "1",
            can_sell := !(jsonEqStr (token_data.getD "sell_tax" (Json.str "0")) "1"),
            honeypot_reason := token_data.getD "honeypot_reason" Json.null,
            buy_tax := buy_tax,
            sell_tax := sell_tax,
            slippage_modifiable :=
              jsonEqStr (token_data.getD "slippage_modifiable" Json.null) "1",
            is_proxy := jsonEqStr (token_data.getD "is_proxy" Json.null) "1",
            is_mintable := jsonEqStr (token_data.getD "is_mintable" Json.null) "1",
            owner_change_balance :=
              jsonEqStr (token_data.getD "owner_change_balance" Json.null) "1",
            hidden_owner := jsonEqStr (token_data.getD "hidden_owner" Json.null) "1",
            anti_whale := jsonEqStr (token_data.getD "anti_whale_modifiable" Json.null) "1",
            trading_cooldown := jsonEqStr (token_data.getD "trading_cooldown" Json.null) "1" }
  else
    Except.ok
      { token_address := token_address, symbol := Json.str "UNKNOWN",
        name := Json.str "Unknown Token", is_honeypot := false, can_sell := true,
        honeypot_reason := Json.null, buy_tax := 0, sell_tax := 0,
        slippage_modifiable := false, is_proxy := false, is_mintable := false,
        owner_change_balance := false, hidden_owner := false, anti_whale := false,
        trading_cooldown := false }

/-- The fixed indicator list of the address path. -/
def malicious_indicators : List String :=
  ["blacklist_doubt", "blackmail_activities", "cybercrime", "darkweb_transactions",
   "financial_crime", "mixer", "money_laundering", "phishing_activities",
   "stealing_attack"]

/-- The risk tier chain computed from the pass rate
(`pass_rate >= 0.9 -> low`, `>= 0.7 -> medium`, `>= 0.5 -> high`, else
`critical`). -/
def riskLevelOf (pass_rate : ℚ) : String :=
  if pass_rate ≥ 9/10 then "low"
  else if pass_rate ≥ 7/10 then "medium"
  else if pass_rate ≥ 1/2 then "high"
  else "critical"

/-- The result assembly of `comprehensive_security_check` (lines 443–468):
`is_safe = (passed == total and total > 0)`, risk level and confidence from
the pass rate when `total_checks > 0`, else the `unknown`/0 pair. -/
def mkSecurityResult (passed_checks total_checks : Nat) (checks : Json) : SecurityResult :=
  { is_safe := decide (passed_checks = total_checks) && decide (0 < total_checks),
    risk_level :=
      if total_checks = 0 then "unknown"
      else riskLevelOf ((passed_checks : ℚ) / (total_checks : ℚ)),
    confidence :=
      if total_checks = 0 then 0
      else min ((passed_checks : ℚ) / (total_checks : ℚ) + 1/10) 1,
    checks_passed := passed_checks,
    total_checks := total_checks,
    details := checks }

/-- The `try` block of `ComprehensiveSecuritySuite.comprehensive_security_check`:
the per-target-type checks, the pass counters, and the result assembly; any
raised exception surfaces as `Except.error`. -/
def securityCheckBody (env : GoPlusEnv) (target : String) (target_type : String) :
    Except String SecurityResult :=
  if target_type = "address" then
    match env.enter with
    | Except.error e => Except.error e
    | Except.ok _ =>
      let address_result := GoPlusLabsClient.check_address_security env.addressSecurityResp
      let checks := Json.obj [("address_security", address_result)]
      let is_safe := !(malicious_indicators.any (fun ind =>
        jsonEqStr (address_result.getD ind Json.null) "1"))
      let passed_checks := if is_safe then 1 else 0
      Except.ok (mkSecurityResult passed_checks 1 checks)
  else if target_type = "token" then
    match env.enter with
    | Except.error e => Except.error e
    | Except.ok _ =>
      match GoPlusLabsClient.check_token_security env.tokenSecurityResp target with
      | Except.error e => Except.error e
      | Except.ok token_analysis =>
        let checks := Json.obj [("token_security", Json.obj
          [("is_honeypot", Json.bool token_analysis.is_honeypot),
           ("can_sell", Json.bool token_analysis.can_sell),
           ("buy_tax", Json.num token_analysis.buy_tax),
           ("sell_tax", Json.num token_analysis.sell_tax),
           ("is_proxy", Json.bool token_analysis.is_proxy),
           ("is_mintable", Json.bool token_analysis.is_mintable),
           ("hidden_owner", Json.bool token_analysis.hidden_owner)])]
        let is_safe := !token_analysis.is_honeypot && token_analysis.can_sell &&
          decide (token_analysis.buy_tax < 10) && decide (token_analysis.sell_tax < 10)
        let passed_checks := if is_safe then 1 else 0
        Except.ok (mkSecurityResult passed_checks 1 checks)
  else if target_type = "url" then
    match env.enter with
    | Except.error e => Except.error e
    | Except.ok _ =>
      let dapp_result := GoPlusLabsClient.check_dapp_security env.dappSecurityResp
      let phishing_result := GoPlusLabsClient.check_phishing_site env.phishingResp
      let checks := Json.obj [("dapp_security", dapp_result),
        ("phishing_check", phishing_result)]
      let dapp_safe := !(jsonEqStr (dapp_result.getD "malicious_activity" Json.null) "1")
      let phishing_safe := !(jsonEqStr (phishing_result.getD "phishing_site" Json.null) "1")
      let passed_checks := (if dapp_safe then 1 else 0) + (if phishing_safe then 1 else 0)
      Except.ok (mkSecurityResult passed_checks 2 checks)
  else
    Except.ok (mkSecurityResult 0 0 (Json.obj []))

/-- `ComprehensiveSecuritySuite.comprehensive_security_check`: the `try`
body, with the `except` handler yielding the fail-closed result. -/
def ComprehensiveSecuritySuite.comprehensive_security_check (env : GoPlusEnv)
    (target : String) (target_type : String) : SecurityResult :=
  match securityCheckBody env target target_type with
  | Except.ok r => r
  | Except.error e =>
    { is_safe := false, risk_level := "unknown", confidence := 0,
      checks_passed := 0, total_checks := 1,
      details := Json.obj [("error", Json.str e)] }

/-- The claim's pass rate of a result: `checks_passed / total_checks`. -/
def passRate (r : SecurityResult) : ℚ :=
  (r.checks_passed : ℚ) / (r.total_checks : ℚ)

/-- Characterisation of the risk tier chain: each tier holds exactly on its
pass-rate interval, so the tier is monotone in the pass rate. -/
theorem riskLevelOf_spec (pr : ℚ) :
    (riskLevelOf pr = "low" ↔ 9/10 ≤ pr) ∧
    (riskLevelOf pr = "medium" ↔ 7/10 ≤ pr ∧ pr < 9/10) ∧
    (riskLevelOf pr = "high" ↔ 1/2 ≤ pr ∧ pr < 7/10) ∧
    (riskLevelOf pr = "critical" ↔ pr < 1/2) := by
  unfold riskLevelOf
  split_ifs with h1 h2 h3
  · exact ⟨⟨fun _ => h1, fun _ => rfl⟩,
      ⟨fun hh => absurd hh (by decide),
       fun hh => absurd h1 (not_le.mpr hh.2)⟩,
      ⟨fun hh => absurd hh (by decide),
       fun hh => absurd h1 (not_le.mpr (lt_trans hh.2 (by norm_num)))⟩,
      ⟨fun hh => absurd hh (by decide),
       fun hh => absurd h1 (not_le.mpr (lt_trans hh (by norm_num)))⟩⟩
  · exact ⟨⟨fun hh => absurd hh (by decide), fun hh => absurd hh h1⟩,
      ⟨fun _ => ⟨h2, not_le.mp h1⟩, fun _ => rfl⟩,
      ⟨fun hh => absurd hh (by decide),
       fun hh => absurd h2 (not_le.mpr hh.2)⟩,
      ⟨fun hh => absurd hh (by decide),
       fun hh => absurd h2 (not_le.mpr (lt_trans hh (by norm_num)))⟩⟩
  · exact ⟨⟨fun hh => absurd hh (by decide), fun hh => absurd hh h1⟩,
      ⟨fun hh => absurd hh (by decide), fun hh => absurd hh.1 h2⟩,
      ⟨fun _ => ⟨h3, not_le.mp h2⟩, fun _ => rfl⟩,
      ⟨fun hh => absurd hh (by decide), fun hh => absurd h3 (not_le.mpr hh)⟩⟩
  · exact ⟨⟨fun hh => absurd hh (by decide), fun hh => absurd hh h1⟩,
      ⟨fun hh => absurd hh (by decide), fun hh => absurd hh.1 h2⟩,
      ⟨fun hh => absurd hh (by decide), fun hh => absurd hh.1 h3⟩,
      ⟨fun _ => not_le.mp h3, fun _ => rfl⟩⟩

/-- Every successful run of the check body produces its result through the
result assembly `mkSecurityResult`. -/
theorem securityCheckBody_ok_shape (env : GoPlusEnv) (target target_type : String)
    (r : SecurityResult) (hok : securityCheckBody env target target_type = Except.ok r) :
    ∃ p t checks, r = mkSecurityResult p t checks := by
  unfold securityCheckBody at hok
  split_ifs at hok
  · cases he : env.enter with
    | error e => rw [he] at hok; exact Except.noConfusion hok
    | ok u => rw [he] at hok; exact ⟨_, _, _, (Except.ok.inj hok).symm⟩
  · cases he : env.enter with
    | error e => rw [he] at hok; exact Except.noConfusion hok
    | ok u =>
      rw [he] at hok
      cases ht : GoPlusLabsClient.check_token_security env.tokenSecurityResp target with
      | error e => rw [ht] at hok; exact Except.noConfusion hok
      | ok ta => rw [ht] at hok; exact ⟨_, _, _, (Except.ok.inj hok).symm⟩
  · cases he : env.enter with
    | error e => rw [he] at hok; exact Except.noConfusion hok
    | ok u => rw [he] at hok; exact ⟨_, _, _, (Except.ok.inj hok).symm⟩
  · exact ⟨_, _, _, (Except.ok.inj hok).symm⟩

/-- C4: whenever any exception is raised inside the check body — for any
target and target type — `comprehensive_security_check` swallows it and
returns the fail-closed result: `is_safe = False`, `risk_level = "unknown"`,
`confidence = 0.0` (with `checks_passed = 0`, `total_checks = 1` and the
error under the `"error"` detail key); being a total function, it never
propagates the exception to the caller. -/
theorem C4_security_fail_closed (env : GoPlusEnv) (target target_type : String)
    (e : String) (h : securityCheckBody env target target_type = Except.error e) :
    ComprehensiveSecuritySuite.comprehensive_security_check env target target_type =
      { is_safe := false, risk_level := "unknown", confidence := 0,
        checks_passed := 0, total_checks := 1,
        details := Json.obj [("error", Json.str e)] } := by
  unfold ComprehensiveSecuritySuite.comprehensive_security_check
  rw [h]

/-- C4 witness: a session whose creation raises makes the address path fail
closed. -/
theorem C4_security_fail_closed_witness :
    ComprehensiveSecuritySuite.comprehensive_security_check
      ⟨Except.error "Cannot connect to host api.gopluslabs.io",
       Except.ok Json.null, Except.ok Json.null, Except.ok Json.null,
       Except.ok Json.null⟩
      "NiEtVMWVYgpXrWkRTMwRaMJtJ41gD3912N" "address" =
      { is_safe := false, risk_level := "unknown", confidence := 0,
        checks_passed := 0, total_checks := 1,
        details := Json.obj [("error",
          Json.str "Cannot connect to host api.gopluslabs.io")] } :=
  C4_security_fail_closed _ _ _ _ (by rfl)

/-- C5 (counterexample to the claim as stated): the fail-closed result of an
exception run reports `total_checks = 1 > 0` with `checks_passed = 0`, so
its pass rate is below 0.5, yet its risk level is `"unknown"`, not
`"critical"` as the claimed biconditional requires. -/
theorem C5_counterexample :
    (ComprehensiveSecuritySuite.comprehensive_security_check
        ⟨Except.error "boom", Except.ok Json.null, Except.ok Json.null,
         Except.ok Json.null, Except.ok Json.null⟩ "t" "address").total_checks = 1 ∧
    (ComprehensiveSecuritySuite.comprehensive_security_check
        ⟨Except.error "boom", Except.ok Json.null, Except.ok Json.null,
         Except.ok Json.null, Except.ok Json.null⟩ "t" "address").checks_passed = 0 ∧
    passRate (ComprehensiveSecuritySuite.comprehensive_security_check
        ⟨Except.error "boom", Except.ok Json.null, Except.ok Json.null,
         Except.ok Json.null, Except.ok Json.null⟩ "t" "address") < 1/2 ∧
    (ComprehensiveSecuritySuite.comprehensive_security_check
        ⟨Except.error "boom", Except.ok Json.null, Except.ok Json.null,
         Except.ok Json.null, Except.ok Json.null⟩ "t" "address").risk_level ≠
      "critical" := by
  refine ⟨rfl, rfl, ?_, by decide⟩
  show ((0 : Nat) : ℚ) / ((1 : Nat) : ℚ) < 1/2
  norm_num

/-- C5 (amended): for every run of `comprehensive_security_check` whose
check phase completes without an exception and performs at least one check,
the returned result's risk level is `"low"` iff its pass rate is ≥ 0.9,
`"medium"` iff in [0.7, 0.9), `"high"` iff in [0.5, 0.7), `"critical"` iff
below 0.5 (hence monotone in the pass rate), and its confidence equals
`min(pass_rate + 0.1, 1.0)`. (The exception path, which reports
`total_checks = 1` with risk `"unknown"`, is excluded — that is claim C4's
fail-closed default.) -/
theorem C5_risk_thresholds_corrected (env : GoPlusEnv) (target target_type : String)
    (r : SecurityResult)
    (hok : securityCheckBody env target target_type = Except.ok r)
    (ht : 0 < r.total_checks) :
    (r.risk_level = "low" ↔ 9/10 ≤ passRate r) ∧
    (r.risk_level = "medium" ↔ 7/10 ≤ passRate r ∧ passRate r < 9/10) ∧
    (r.risk_level = "high" ↔ 1/2 ≤ passRate r ∧ passRate r < 7/10) ∧
    (r.risk_level = "critical" ↔ passRate r < 1/2) ∧
    r.confidence = min (passRate r + 1/10) 1 := by
  obtain ⟨p, t, checks, rfl⟩ := securityCheckBody_ok_shape env target target_type r hok
  have htt : (mkSecurityResult p t checks).total_checks = t := rfl
  rw [htt] at ht
  have htne : ¬t = 0 := Nat.pos_iff_ne_zero.mp ht
  have hrl : (mkSecurityResult p t checks).risk_level =
      riskLevelOf ((p : ℚ) / (t : ℚ)) := by
    simp [mkSecurityResult, htne]
  have hcf : (mkSecurityResult p t checks).confidence =
      min ((p : ℚ) / (t : ℚ) + 1/10) 1 := by
    simp [mkSecurityResult, htne]
  have hpr : passRate (mkSecurityResult p t checks) = (p : ℚ) / (t : ℚ) := rfl
  rw [hrl, hcf, hpr]
  obtain ⟨s1, s2, s3, s4⟩ := riskLevelOf_spec ((p : ℚ) / (t : ℚ))
  exact ⟨s1, s2, s3, s4, rfl⟩

/-- C5 witness: an address run whose single check passes has pass rate 1 and
risk level `"low"`, with confidence `min(1 + 0.1, 1) = 1`. -/
theorem C5_risk_thresholds_corrected_witness :
    (ComprehensiveSecuritySuite.comprehensive_security_check
        ⟨Except.ok (), Except.ok (Json.obj [("result",
            Json.obj [("mixer", Json.str "0")])]),
         Except.ok Json.null, Except.ok Json.null, Except.ok Json.null⟩
        "t" "address").risk_level = "low" :=
  ((C5_risk_thresholds_corrected
      ⟨Except.ok (), Except.ok (Json.obj [("result",
          Json.obj [("mixer", Json.str "0")])]),
       Except.ok Json.null, Except.ok Json.null, Except.ok Json.null⟩
      "t" "address" _ (by rfl) (by decide)).1).mpr
    (by show (9:ℚ)/10 ≤ ((1 : Nat) : ℚ) / ((1 : Nat) : ℚ); norm_num)

/-! ### `CryptoPriceMonitor` price alerts (claim C10)

The monitor's state is the in-memory list `self.alerts`; methods that mutate
it are modelled as functions from the list to the new list. The price feed
consulted by `check_alerts` (`get_token_price`, which may return `None`) is
an environment function, and timestamps are `Nat` ticks. -/

/-- `PriceAlert` of `security_and_analysis_tools.py`. -/
structure PriceAlert where
  symbol : String
  target_price : ℚ
  condition : String
  active : Bool
  created_at : Nat
  triggered_at : Option Nat
deriving DecidableEq

/-- `CryptoPriceMonitor.create_price_alert`: build the alert (symbol
upper-cased, condition lower-cased, active, untriggered) and append it. -/
def create_price_alert (now : Nat) (symbol : String) (target_price : ℚ)
    (condition : String) (alerts : List PriceAlert) : PriceAlert × List PriceAlert :=
  let alert : PriceAlert :=
    { symbol := pyUpper symbol, target_price := target_price,
      condition := pyLower condition, active := true, created_at := now,
      triggered_at := none }
  (alert, alerts ++ [alert])

/-- One loop iteration of `CryptoPriceMonitor.check_alerts` on one alert:
skip inactive or already-triggered alerts and unknown prices; otherwise
trigger when the above/below condition holds, stamping `triggered_at` and
clearing `active`. Returns the (possibly mutated) alert and whether it was
appended to the triggered list. -/
def checkAlertStep (price : String → Option ℚ) (now : Nat) (a : PriceAlert) :
    PriceAlert × Bool :=
  if !a.active || a.triggered_at.isSome then (a, false)
  else
    match price a.symbol with
    | none => (a, false)
    | some current_price =>
      let should_trigger :=
        (a.condition == "above" && decide (current_price ≥ a.target_price)) ||
        (a.condition == "below" && decide (current_price ≤ a.target_price))
      if should_trigger then
        ({ a with triggered_at := some now, active := false }, true)
      else (a, false)

/-- `CryptoPriceMonitor.check_alerts`: run the step over the whole list;
the first component is the updated state, the second the returned
`triggered_alerts`. -/
def check_alerts (price : String → Option ℚ) (now : Nat) (alerts : List PriceAlert) :
    List PriceAlert × List PriceAlert :=
  ((alerts.map (checkAlertStep price now)).map (fun pr => pr.1),
   (alerts.map (checkAlertStep price now)).filterMap
     (fun pr => if pr.2 then some pr.1 else none))

/-- `CryptoPriceMonitor.get_active_alerts`. -/
def get_active_alerts (alerts : List PriceAlert) : List PriceAlert :=
  alerts.filter (fun a => a.active)

/-- How many times the alert at position `i` is triggered across a sequence
of `check_alerts` calls (each with its own price feed and clock tick). -/
def countTriggers : List ((String → Option ℚ) × Nat) → List PriceAlert → Nat → Nat
  | [], _, _ => 0
  | s :: rest, alerts, i =>
    (match alerts[i]? with
     | some a => if (checkAlertStep s.1 s.2 a).2 then 1 else 0
     | none => 0) +
    countTriggers rest (check_alerts s.1 s.2 alerts).1 i

/-- A step triggers only an active, untriggered alert, and on triggering
stamps `triggered_at := now` and clears `active`. -/
theorem checkAlertStep_trigger (price : String → Option ℚ) (now : Nat) (a b : PriceAlert)
    (h : checkAlertStep price now a = (b, true)) :
    a.active = true ∧ a.triggered_at = none ∧
    b.active = false ∧ b.triggered_at = some now := by
  unfold checkAlertStep at h
  split at h
  · simp at h
  · rename_i hskip
    have hskip' := hskip
    simp only [Bool.or_eq_true, Bool.not_eq_true', not_or] at hskip'
    obtain ⟨hact, htrg⟩ := hskip'
    split at h
    · simp at h
    · dsimp only [] at h
      split at h
      · simp only [Prod.mk.injEq] at h
        obtain ⟨hb, -⟩ := h
        subst hb
        refine ⟨?_, Option.not_isSome_iff_eq_none.mp htrg, rfl, rfl⟩
        cases hA : a.active with
        | true => rfl
        | false => exact absurd hA (by simp [hact])
      · simp at h

/-- An already-triggered alert is never touched and never re-triggered. -/
theorem checkAlertStep_dead (price : String → Option ℚ) (now : Nat) (a : PriceAlert)
    (hd : a.triggered_at.isSome = true) : checkAlertStep price now a = (a, false) := by
  unfold checkAlertStep
  rw [if_pos (by simp [hd])]

/-- Once the alert at position `i` carries a trigger stamp, no later
`check_alerts` call triggers it again. -/
theorem countTriggers_dead (steps : List ((String → Option ℚ) × Nat)) :
    ∀ (alerts : List PriceAlert) (i : Nat) (a : PriceAlert),
      alerts[i]? = some a → a.triggered_at.isSome = true →
      countTriggers steps alerts i = 0 := by
  induction steps with
  | nil => intro alerts i a _ _; rfl
  | cons s rest ih =>
    intro alerts i a hg hd
    unfold countTriggers
    have hstep := checkAlertStep_dead s.1 s.2 a hd
    have hnew : (check_alerts s.1 s.2 alerts).1[i]? = some a := by
      unfold check_alerts
      simp only [List.getElem?_map, hg, Option.map_some', hstep]
    simp [hg, hstep, ih (check_alerts s.1 s.2 alerts).1 i a hnew hd]

/-- At most one trigger per alert across any sequence of `check_alerts`
calls. -/
theorem countTriggers_le_one (steps : List ((String → Option ℚ) × Nat)) :
    ∀ (alerts : List PriceAlert) (i : Nat), countTriggers steps alerts i ≤ 1 := by
  induction steps with
  | nil => intro alerts i; exact Nat.zero_le 1
  | cons s rest ih =>
    intro alerts i
    unfold countTriggers
    cases hg : alerts[i]? with
    | none => simpa [hg] using ih (check_alerts s.1 s.2 alerts).1 i
    | some a =>
      cases htrig : (checkAlertStep s.1 s.2 a).2 with
      | false => simpa [hg, htrig] using ih (check_alerts s.1 s.2 alerts).1 i
      | true =>
        have hfull : checkAlertStep s.1 s.2 a = ((checkAlertStep s.1 s.2 a).1, true) := by
          rw [← htrig]
        obtain ⟨-, -, -, hstamp⟩ :=
          checkAlertStep_trigger s.1 s.2 a (checkAlertStep s.1 s.2 a).1 hfull
        have hnew : (check_alerts s.1 s.2 alerts).1[i]? =
            some (checkAlertStep s.1 s.2 a).1 := by
          unfold check_alerts
          simp only [List.getElem?_map, hg, Option.map_some']
        have hzero := countTriggers_dead rest (check_alerts s.1 s.2 alerts).1 i
          (checkAlertStep s.1 s.2 a).1 hnew (by simp [hstamp])
        simp [hg, htrig, hzero]

/-- Every alert in the returned `triggered_alerts` list has `active`
cleared. -/
theorem check_alerts_triggered_inactive (price : String → Option ℚ) (now : Nat)
    (alerts : List PriceAlert) (a : PriceAlert)
    (h : a ∈ (check_alerts price now alerts).2) : a.active = false := by
  unfold check_alerts at h
  simp only [List.mem_filterMap, List.mem_map] at h
  obtain ⟨pr, ⟨a0, -, hpr⟩, hsel⟩ := h
  by_cases h2 : pr.2 = true
  · rw [if_pos h2] at hsel
    cases hsel
    have hfull : checkAlertStep price now a0 = (pr.1, true) := by
      rw [hpr, ← h2]
    exact (checkAlertStep_trigger price now a0 pr.1 hfull).2.2.1
  · rw [if_neg h2] at hsel
    exact Option.noConfusion hsel

/-- C10: a freshly created alert is active and untriggered; a step triggers
only an active, untriggered alert and then stamps `triggered_at` and clears
`active`; an alert position is triggered at most once across any sequence of
`check_alerts` calls; and a triggered alert is never returned by
`get_active_alerts`. -/
theorem C10_alert_lifecycle :
    (∀ (now : Nat) (symbol : String) (tp : ℚ) (cond : String) (alerts : List PriceAlert),
      (create_price_alert now symbol tp cond alerts).1.active = true ∧
      (create_price_alert now symbol tp cond alerts).1.triggered_at = none) ∧
    (∀ (price : String → Option ℚ) (now : Nat) (a b : PriceAlert),
      checkAlertStep price now a = (b, true) →
        a.active = true ∧ a.triggered_at = none ∧
        b.active = false ∧ b.triggered_at = some now) ∧
    (∀ (steps : List ((String → Option ℚ) × Nat)) (alerts : List PriceAlert) (i : Nat),
      countTriggers steps alerts i ≤ 1) ∧
    (∀ (price : String → Option ℚ) (now : Nat) (alerts l : List PriceAlert)
        (a : PriceAlert), a ∈ (check_alerts price now alerts).2 →
          a ∉ get_active_alerts l) := by
  refine ⟨fun _ _ _ _ _ => ⟨rfl, rfl⟩, checkAlertStep_trigger,
    fun steps => countTriggers_le_one steps, ?_⟩
  intro price now alerts l a hmem hact
  have hfalse := check_alerts_triggered_inactive price now alerts a hmem
  have htrue : a.active = true := by
    unfold get_active_alerts at hact
    exact (List.mem_filter.mp hact).2
  rw [hfalse] at htrue
  exact Bool.noConfusion htrue

/-- C10 witness: one alert created at tick 0 for `NEO above 50`; a price
feed at 60 triggers it exactly once over two consecutive `check_alerts`
calls, and it is absent from the active list afterwards. -/
theorem C10_alert_lifecycle_witness :
    (create_price_alert 0 "neo" 50 "ABOVE" []).1.active = true ∧
    countTriggers [(fun _ => some 60, 1), (fun _ => some 60, 2)]
      (create_price_alert 0 "neo" 50 "ABOVE" []).2 0 = 1 ∧
    get_active_alerts
      (check_alerts (fun _ => some 60) 1 (create_price_alert 0 "neo" 50 "ABOVE" []).2).1 =
      [] :=
  ⟨(C10_alert_lifecycle.1 0 "neo" 50 "ABOVE" []).1, by decide, by decide⟩
